import Mathlib

/-
Verification of the SKUMapper core (mdlkncsn.py.py): SKU→MSKU mapping,
combo-product classification, and the row transformer over sales tables.

Embedding conventions:
* A pandas cell is `Option String`; `none` models NaN (`pd.isna` true).
* A DataFrame row is an association list from column name to cell, and a
  DataFrame is its ordered column list together with its ordered row list.
* A Python dict is an insertion-ordered association list; assignment to an
  existing key overwrites in place, a fresh key is appended at the end.
* Python string operations (strip / upper / startswith) are modelled as
  structural computations over the character list of the string.
-/

namespace WMS

/-- Python `str.upper()`: uppercase every character. -/
def pyUpper (s : String) : String := String.mk (s.data.map Char.toUpper)

/-- Python `str.strip()`: drop leading and trailing whitespace. -/
def pyStrip (s : String) : String :=
  String.mk (((s.data.dropWhile Char.isWhitespace).reverse.dropWhile Char.isWhitespace).reverse)

/-- Python `s.startswith(p)`. -/
def pyStartsWith (s p : String) : Bool := List.isPrefixOf p.data s.data

/-- The normalization `str(sku_value).strip().upper()` from line 51 of the source. -/
def cleanSKU (s : String) : String := pyUpper (pyStrip s)

/-- Lookup in a Python dict modelled as an association list: first binding wins
(the build below keeps keys unique, mirroring a real dict). -/
def lookupKey : List (String × String) → String → Option String
  | [], _ => none
  | (k, v) :: rest, q => if k = q then some v else lookupKey rest q

/-- The keys of a dict, in insertion order. -/
def keysOf (m : List (String × String)) : List String := m.map Prod.fst

/-- Python dict assignment `d[k] = v`: overwrite in place if `k` is present,
append at the end otherwise. -/
def dictInsert : List (String × String) → String → String → List (String × String)
  | [], k, v => [(k, v)]
  | (k0, v0) :: rest, k, v =>
    if k0 = k then (k, v) :: rest else (k0, v0) :: dictInsert rest k v

/-- `load_mapping` (line 32): `mapping_df.set_index('SKU')['MSKU'].to_dict()` —
the loaded two-column table's `(SKU, MSKU)` rows are poured into a dict in
row order, keys taken verbatim (no normalization at load time). The
file-reading and column-presence glue around line 32 is external I/O. -/
def load_mapping (mappingRows : List (String × String)) : List (String × String) :=
  mappingRows.foldl (fun m kv => dictInsert m kv.1 kv.2) []

/-- A sales-table row: column name ↦ cell, `none` modelling NaN. -/
abbrev Row := List (String × Option String)

/-- Reading a cell; a column missing from the row reads as NaN. -/
def getCell : Row → String → Option String
  | [], _ => none
  | (c, v) :: rest, q => if c = q then v else getCell rest q

/-- Writing a cell: overwrite in place if the column is bound, else append. -/
def setCell : Row → String → Option String → Row
  | [], c, v => [(c, v)]
  | (c0, v0) :: rest, c, v =>
    if c0 = c then (c, v) :: rest else (c0, v0) :: setCell rest c v

/-- A DataFrame: ordered column list plus ordered rows. -/
structure Frame where
  cols : List String
  rows : List Row
deriving DecidableEq

/-- Column-list effect of `df[c] = …`: a new column is appended at the end. -/
def addCol (cs : List String) (c : String) : List String :=
  if c ∈ cs then cs else cs ++ [c]

/-- `df[dst] = df.apply`-style column assignment: every row gets its `dst`
cell overwritten with `f row`, and `dst` joins the column list if new. -/
def assignColumn (df : Frame) (dst : String) (f : Row → Option String) : Frame :=
  ⟨addCol df.cols dst, df.rows.map fun r => setCell r dst (f r)⟩

/-- `SKUMapper.identify_and_map_sku` (lines 42–57): NaN propagates; otherwise
normalize, look up, and fall back to the original raw value on a miss. -/
def identify_and_map_sku (m : List (String × String)) (sku_value : Option String) :
    Option String :=
  match sku_value with
  | none => none
  | some s =>
    match lookupKey m (cleanSKU s) with
    | some msku => some msku
    | none => some s

/-- The inner `_process_combo` of `handle_combo_products` (lines 70–76):
NaN passes through; a SKU whose normalized form starts with the combo
marker is replaced by the marker text followed by `"MSKU"`. -/
def _process_combo (comboPre : String) (sku : Option String) : Option String :=
  match sku with
  | none => none
  | some s =>
    if pyStartsWith (cleanSKU s) comboPre then some (comboPre ++ "MSKU") else some s

/-- `SKUMapper.handle_combo_products` (lines 59–80): if the SKU column is
missing the frame is returned unchanged (warning only); otherwise the SKU
column is rewritten in place by `_process_combo`. -/
def handle_combo_products (df : Frame) (sku_column : String) (comboPre : String) :
    Frame :=
  if sku_column ∈ df.cols then
    assignColumn df sku_column (fun r => _process_combo comboPre (getCell r sku_column))
  else df

/-- `SKUMapper.process_sales_data` (lines 82–106): reject an empty/unloaded
mapping, then a missing SKU column; otherwise resolve the MSKU column,
rewrite combo SKUs in place, and resolve the MSKU column again, in that
order. -/
def process_sales_data (m : List (String × String)) (df : Frame)
    (sku_column : String) (msku_column : String) : Except String Frame :=
  if m = [] then
    Except.error "SKU to MSKU mapping is not loaded."
  else if sku_column ∈ df.cols then
    let df1 := assignColumn df msku_column
      (fun r => identify_and_map_sku m (getCell r sku_column))
    let df2 := handle_combo_products df1 sku_column "COMBO_"
    let df3 := assignColumn df2 msku_column
      (fun r => identify_and_map_sku m (getCell r sku_column))
    Except.ok df3
  else
    Except.error "SKU column not found in the sales data."

/-- Whether a row has a binding for the given column. -/
def colBound : Row → String → Bool
  | [], _ => false
  | (c0, _) :: rest, c => c0 = c || colBound rest c

/-- The spec's characterization of duplicate handling in §3: the value of the
last source row carrying the given SKU key.  Stated from the spec's words to
compare `load_mapping` against; not itself part of the code embedding. -/
def lastRowValue (pairs : List (String × String)) (k : String) : Option String :=
  pairs.foldl (fun acc kv => if kv.1 = k then some kv.2 else acc) none

/-- One resolve pass of `process_sales_data` at row level (lines 95 and 102,
at the default column names): overwrite MSKU with the resolution of SKU. -/
def resolvePass (m : List (String × String)) (r : Row) : Row :=
  setCell r "MSKU" (identify_and_map_sku m (getCell r "SKU"))

/-- The combo pass of `process_sales_data` at row level (line 78, at the
default column names): rewrite SKU in place by `_process_combo`. -/
def comboPass (r : Row) : Row :=
  setCell r "SKU" (_process_combo "COMBO_" (getCell r "SKU"))

/-- The row-level composite of the three passes of `process_sales_data`:
resolve into MSKU, rewrite a combo SKU in place, resolve into MSKU again. -/
def transformRow (m : List (String × String)) (r : Row) : Row :=
  resolvePass m (comboPass (resolvePass m r))

/-- The mapping of spec Scenario A/B, used in concrete witnesses. -/
def demoMap : List (String × String) := [("ABC123", "M-1"), ("XYZ999", "M-2")]

/-- Whether a transformer result is an error (a raised exception in the code). -/
def isError : Except String Frame → Bool
  | Except.error _ => true
  | Except.ok _ => false

/-- The sales table of spec Scenario C: one row, SKU `"combo_special"`. -/
def scenarioC : Frame := ⟨["SKU"], [[("SKU", some "combo_special")]]⟩

/-- The transform of `scenarioC` under `demoMap`. -/
def scenarioC_out : Frame :=
  ⟨["SKU", "MSKU"], [[("SKU", some "COMBO_MSKU"), ("MSKU", some "COMBO_MSKU")]]⟩

/-- A mapping whose dict contains the placeholder text as a key. -/
def comboTrapMap : List (String × String) := [("COMBO_MSKU", "SURPRISE")]

/-- A one-row sales table with an extra `QTY` column, for frame conditions. -/
def scenario9 : Frame :=
  ⟨["SKU", "QTY"], [[("SKU", some "ABC123"), ("QTY", some "5")]]⟩

/-- The transform of `scenario9` under `demoMap`. -/
def scenario9_out : Frame :=
  ⟨["SKU", "QTY", "MSKU"],
    [[("SKU", some "ABC123"), ("QTY", some "5"), ("MSKU", some "M-1")]]⟩

/-! ### Basic lemmas about rows and columns -/

theorem getCell_setCell_self (r : Row) (c : String) (v : Option String) :
    getCell (setCell r c v) c = v := by
  induction r with
  | nil => simp [setCell, getCell]
  | cons hd tl ih =>
    obtain ⟨c0, v0⟩ := hd
    by_cases h : c0 = c
    · simp [setCell, getCell, h]
    · simp [setCell, getCell, h, ih]

theorem getCell_setCell_ne (r : Row) (c c' : String) (v : Option String)
    (h : c' ≠ c) : getCell (setCell r c v) c' = getCell r c' := by
  have hcc : ¬ c = c' := fun hh => h hh.symm
  induction r with
  | nil => simp [setCell, getCell, hcc]
  | cons hd tl ih =>
    obtain ⟨c0, v0⟩ := hd
    by_cases hc : c0 = c
    · subst hc
      simp [setCell, getCell, hcc]
    · simp [setCell, getCell, hc, ih]

theorem setCell_setCell_self (r : Row) (c : String) (v v' : Option String) :
    setCell (setCell r c v) c v' = setCell r c v' := by
  induction r with
  | nil => simp [setCell]
  | cons hd tl ih =>
    obtain ⟨c0, v0⟩ := hd
    by_cases h : c0 = c
    · simp [setCell, h]
    · simp [setCell, h, ih]

theorem colBound_setCell_self (r : Row) (c : String) (v : Option String) :
    colBound (setCell r c v) c = true := by
  induction r with
  | nil => simp [setCell, colBound]
  | cons hd tl ih =>
    obtain ⟨c0, v0⟩ := hd
    by_cases h : c0 = c
    · simp [setCell, colBound, h]
    · simp [setCell, colBound, h, ih]

theorem colBound_setCell (r : Row) (c c' : String) (v : Option String)
    (h : colBound r c = true) : colBound (setCell r c' v) c = true := by
  induction r with
  | nil => simp [colBound] at h
  | cons hd tl ih =>
    obtain ⟨c0, v0⟩ := hd
    simp only [colBound, Bool.or_eq_true, decide_eq_true_eq] at h
    by_cases hc : c0 = c'
    · subst hc
      rcases h with h | h
      · subst h
        simp [setCell, colBound]
      · simp [setCell, colBound, h]
    · rcases h with h | h
      · subst h
        simp [setCell, hc, colBound]
      · simp [setCell, hc, colBound, ih h]

theorem setCell_self_of_getCell (r : Row) (c : String) (v : Option String)
    (hb : colBound r c = true) (hv : getCell r c = v) : setCell r c v = r := by
  induction r with
  | nil => simp [colBound] at hb
  | cons hd tl ih =>
    obtain ⟨c0, v0⟩ := hd
    by_cases h : c0 = c
    · subst h
      simp only [getCell, if_pos] at hv
      simp [setCell, hv]
    · simp only [colBound, Bool.or_eq_true, decide_eq_true_eq] at hb
      rcases hb with hb | hb
      · exact absurd hb h
      · simp only [getCell, if_neg h] at hv
        simp [setCell, h, ih hb hv]

theorem addCol_of_mem (cs : List String) (c : String) (h : c ∈ cs) :
    addCol cs c = cs := by
  simp [addCol, h]

theorem mem_addCol_self (cs : List String) (c : String) : c ∈ addCol cs c := by
  by_cases h : c ∈ cs
  · rw [addCol_of_mem cs c h]
    exact h
  · simp [addCol, h]

theorem mem_addCol_of_mem (cs : List String) (c c' : String) (h : c ∈ cs) :
    c ∈ addCol cs c' := by
  by_cases h' : c' ∈ cs
  · rw [addCol_of_mem cs c' h']
    exact h
  · simp [addCol, h']
    exact Or.inl h

/-! ### Basic lemmas about the dict built by `load_mapping` -/

theorem lookupKey_dictInsert (m : List (String × String)) (k v q : String) :
    lookupKey (dictInsert m k v) q = if k = q then some v else lookupKey m q := by
  induction m with
  | nil => simp [dictInsert, lookupKey]
  | cons hd tl ih =>
    obtain ⟨k0, v0⟩ := hd
    by_cases h : k0 = k
    · subst h
      by_cases hq : k0 = q <;> simp [dictInsert, lookupKey, hq]
    · by_cases hq : k0 = q
      · subst hq
        have : ¬ k = k0 := fun hh => h hh.symm
        simp [dictInsert, h, lookupKey, this]
      · simp [dictInsert, h, lookupKey, hq, ih]

theorem dictInsert_cons_eq (tl : List (String × String)) (k0 v0 k v : String)
    (h : k0 = k) : dictInsert ((k0, v0) :: tl) k v = (k, v) :: tl := by
  simp [dictInsert, h]

theorem dictInsert_cons_ne (tl : List (String × String)) (k0 v0 k v : String)
    (h : ¬ k0 = k) : dictInsert ((k0, v0) :: tl) k v = (k0, v0) :: dictInsert tl k v := by
  simp [dictInsert, h]

theorem keysOf_cons (p : String × String) (tl : List (String × String)) :
    keysOf (p :: tl) = p.1 :: keysOf tl := rfl

theorem mem_keysOf_dictInsert (m : List (String × String)) (k v a : String)
    (h : a ∈ keysOf (dictInsert m k v)) : a ∈ keysOf m ∨ a = k := by
  induction m with
  | nil =>
    simp [dictInsert, keysOf] at h ⊢
    exact h
  | cons hd tl ih =>
    obtain ⟨k0, v0⟩ := hd
    by_cases hk : k0 = k
    · rw [dictInsert_cons_eq tl k0 v0 k v hk] at h
      simp [keysOf_cons] at h ⊢
      tauto
    · rw [dictInsert_cons_ne tl k0 v0 k v hk] at h
      simp [keysOf_cons] at h ⊢
      rcases h with h | h
      · tauto
      · rcases ih h with h' | h' <;> tauto

theorem keysOf_dictInsert_self (m : List (String × String)) (k v : String) :
    k ∈ keysOf (dictInsert m k v) := by
  induction m with
  | nil => simp [dictInsert, keysOf]
  | cons hd tl ih =>
    obtain ⟨k0, v0⟩ := hd
    by_cases hk : k0 = k
    · rw [dictInsert_cons_eq tl k0 v0 k v hk]
      simp [keysOf_cons]
    · rw [dictInsert_cons_ne tl k0 v0 k v hk]
      simp [keysOf_cons]
      right
      exact ih

theorem mem_keysOf_dictInsert_of_mem (m : List (String × String)) (k v a : String)
    (h : a ∈ keysOf m) : a ∈ keysOf (dictInsert m k v) := by
  induction m with
  | nil => simp [keysOf] at h
  | cons hd tl ih =>
    obtain ⟨k0, v0⟩ := hd
    simp only [keysOf_cons, List.mem_cons] at h
    by_cases hk : k0 = k
    · rw [dictInsert_cons_eq tl k0 v0 k v hk]
      simp only [keysOf_cons, List.mem_cons]
      rcases h with h | h
      · left
        rw [h, hk]
      · right
        exact h
    · rw [dictInsert_cons_ne tl k0 v0 k v hk]
      simp only [keysOf_cons, List.mem_cons]
      rcases h with h | h
      · left
        exact h
      · right
        exact ih h

theorem nodup_keysOf_dictInsert (m : List (String × String)) (k v : String)
    (h : (keysOf m).Nodup) : (keysOf (dictInsert m k v)).Nodup := by
  induction m with
  | nil => simp [dictInsert, keysOf]
  | cons hd tl ih =>
    obtain ⟨k0, v0⟩ := hd
    simp only [keysOf_cons, List.nodup_cons] at h
    by_cases hk : k0 = k
    · rw [dictInsert_cons_eq tl k0 v0 k v hk]
      simp only [keysOf_cons, List.nodup_cons]
      refine ⟨?_, h.2⟩
      rw [← hk]
      exact h.1
    · rw [dictInsert_cons_ne tl k0 v0 k v hk]
      simp only [keysOf_cons, List.nodup_cons]
      refine ⟨fun hmem => ?_, ih h.2⟩
      rcases mem_keysOf_dictInsert tl k v k0 hmem with h' | h'
      · exact h.1 h'
      · exact hk h'

/-! ### Lemmas about `load_mapping` as a whole -/

theorem lookupKey_foldl_dictInsert (pairs : List (String × String)) :
    ∀ (m : List (String × String)) (q : String),
      lookupKey (pairs.foldl (fun d kv => dictInsert d kv.1 kv.2) m) q =
        pairs.foldl (fun acc kv => if kv.1 = q then some kv.2 else acc) (lookupKey m q) := by
  induction pairs with
  | nil => intro m q; rfl
  | cons hd tl ih =>
    intro m q
    simp only [List.foldl_cons]
    rw [ih, lookupKey_dictInsert]

theorem lookupKey_load_mapping (pairs : List (String × String)) (q : String) :
    lookupKey (load_mapping pairs) q = lastRowValue pairs q := by
  unfold load_mapping lastRowValue
  rw [lookupKey_foldl_dictInsert]
  rfl

theorem foldl_lastRowValue_mem (pairs : List (String × String)) (q v : String) :
    ∀ acc : Option String,
      pairs.foldl (fun acc kv => if kv.1 = q then some kv.2 else acc) acc = some v →
      (q, v) ∈ pairs ∨ acc = some v := by
  induction pairs with
  | nil => intro acc h; exact Or.inr h
  | cons hd tl ih =>
    obtain ⟨a, b⟩ := hd
    intro acc h
    simp only [List.foldl_cons] at h
    rcases ih _ h with h' | h'
    · exact Or.inl (List.mem_cons_of_mem _ h')
    · by_cases hq : a = q
      · rw [if_pos hq] at h'
        have hb : b = v := Option.some.inj h'
        subst hq
        subst hb
        exact Or.inl (List.mem_cons_self _ _)
      · rw [if_neg hq] at h'
        exact Or.inr h'

theorem lookupKey_load_mapping_mem (pairs : List (String × String)) (q v : String)
    (h : lookupKey (load_mapping pairs) q = some v) : (q, v) ∈ pairs := by
  rw [lookupKey_load_mapping] at h
  unfold lastRowValue at h
  rcases foldl_lastRowValue_mem pairs q v none h with h' | h'
  · exact h'
  · cases h'

theorem mem_keysOf_foldl (pairs : List (String × String)) :
    ∀ (m : List (String × String)) (a : String),
      (a ∈ keysOf m ∨ ∃ v, (a, v) ∈ pairs) →
      a ∈ keysOf (pairs.foldl (fun d kv => dictInsert d kv.1 kv.2) m) := by
  induction pairs with
  | nil =>
    intro m a h
    rcases h with h | ⟨v, hv⟩
    · exact h
    · cases hv
  | cons hd tl ih =>
    obtain ⟨k0, v0⟩ := hd
    intro m a h
    simp only [List.foldl_cons]
    apply ih
    rcases h with h | ⟨v, hv⟩
    · exact Or.inl (mem_keysOf_dictInsert_of_mem m k0 v0 a h)
    · rcases List.mem_cons.mp hv with h' | h'
      · left
        have ha : a = k0 := congrArg Prod.fst h'
        rw [ha]
        exact keysOf_dictInsert_self m k0 v0
      · exact Or.inr ⟨v, h'⟩

theorem mem_keysOf_load_mapping (pairs : List (String × String)) (a v : String)
    (h : (a, v) ∈ pairs) : a ∈ keysOf (load_mapping pairs) := by
  unfold load_mapping
  exact mem_keysOf_foldl pairs [] a (Or.inr ⟨v, h⟩)

theorem nodup_keysOf_foldl (pairs : List (String × String)) :
    ∀ m : List (String × String), (keysOf m).Nodup →
      (keysOf (pairs.foldl (fun d kv => dictInsert d kv.1 kv.2) m)).Nodup := by
  induction pairs with
  | nil => intro m h; exact h
  | cons hd tl ih =>
    intro m h
    simp only [List.foldl_cons]
    exact ih _ (nodup_keysOf_dictInsert m hd.1 hd.2 h)

theorem nodup_keysOf_load_mapping (pairs : List (String × String)) :
    (keysOf (load_mapping pairs)).Nodup := by
  unfold load_mapping
  exact nodup_keysOf_foldl pairs [] (by simp [keysOf])

/-! ### The three passes of `process_sales_data` and their algebra -/

theorem getCell_SKU_resolvePass (m : List (String × String)) (r : Row) :
    getCell (resolvePass m r) "SKU" = getCell r "SKU" :=
  getCell_setCell_ne r "MSKU" "SKU" _ (by decide)

theorem getCell_MSKU_resolvePass (m : List (String × String)) (r : Row) :
    getCell (resolvePass m r) "MSKU" = identify_and_map_sku m (getCell r "SKU") :=
  getCell_setCell_self r "MSKU" _

theorem getCell_SKU_comboPass (r : Row) :
    getCell (comboPass r) "SKU" = _process_combo "COMBO_" (getCell r "SKU") :=
  getCell_setCell_self r "SKU" _

theorem resolvePass_resolvePass (m : List (String × String)) (r : Row) :
    resolvePass m (resolvePass m r) = resolvePass m r := by
  unfold resolvePass
  rw [getCell_setCell_ne r "MSKU" "SKU" _ (by decide), setCell_setCell_self]

theorem _process_combo_idem (s : Option String) :
    _process_combo "COMBO_" (_process_combo "COMBO_" s) = _process_combo "COMBO_" s := by
  cases s with
  | none => rfl
  | some s =>
    by_cases h : pyStartsWith (cleanSKU s) "COMBO_" = true
    · simp only [_process_combo, if_pos h]
      decide
    · simp only [_process_combo, if_neg h]

theorem transformRow_idem (m : List (String × String)) (r : Row) :
    transformRow m (transformRow m r) = transformRow m r := by
  unfold transformRow
  have hT1 : resolvePass m (resolvePass m (comboPass (resolvePass m r))) =
      resolvePass m (comboPass (resolvePass m r)) := resolvePass_resolvePass m _
  rw [hT1]
  have hget : getCell (resolvePass m (comboPass (resolvePass m r))) "SKU" =
      _process_combo "COMBO_" (getCell r "SKU") := by
    rw [getCell_SKU_resolvePass, getCell_SKU_comboPass, getCell_SKU_resolvePass]
  have hdef : ∀ x : Row,
      comboPass x = setCell x "SKU" (_process_combo "COMBO_" (getCell x "SKU")) :=
    fun _ => rfl
  have hcombo : comboPass (resolvePass m (comboPass (resolvePass m r))) =
      resolvePass m (comboPass (resolvePass m r)) := by
    rw [hdef (resolvePass m (comboPass (resolvePass m r))), hget, _process_combo_idem]
    apply setCell_self_of_getCell
    · show colBound (setCell (comboPass (resolvePass m r)) "MSKU"
        (identify_and_map_sku m (getCell (comboPass (resolvePass m r)) "SKU"))) "SKU" = true
      apply colBound_setCell
      show colBound (setCell (resolvePass m r) "SKU"
        (_process_combo "COMBO_" (getCell (resolvePass m r) "SKU"))) "SKU" = true
      exact colBound_setCell_self _ "SKU" _
    · exact hget
  rw [hcombo]
  exact resolvePass_resolvePass m _

theorem handle_combo_of_mem (df : Frame) (c p : String) (h : c ∈ df.cols) :
    handle_combo_products df c p =
      assignColumn df c (fun r => _process_combo p (getCell r c)) := by
  unfold handle_combo_products
  rw [if_pos h]

/-- On a nonempty mapping and a sales table with a SKU column, the transformer
succeeds and is exactly: append MSKU to the column list, and run the three-pass
row transform over every row, in order. -/
theorem process_sales_data_ok (m : List (String × String)) (df : Frame)
    (hm : ¬ m = []) (hS : "SKU" ∈ df.cols) :
    process_sales_data m df "SKU" "MSKU" =
      Except.ok ⟨addCol df.cols "MSKU", df.rows.map (transformRow m)⟩ := by
  have h1 : "SKU" ∈ (assignColumn df "MSKU"
      (fun r => identify_and_map_sku m (getCell r "SKU"))).cols :=
    mem_addCol_of_mem df.cols "SKU" "MSKU" hS
  unfold process_sales_data
  rw [if_neg hm, if_pos hS]
  show Except.ok (assignColumn (handle_combo_products
      (assignColumn df "MSKU" (fun r => identify_and_map_sku m (getCell r "SKU")))
      "SKU" "COMBO_") "MSKU" (fun r => identify_and_map_sku m (getCell r "SKU"))) = _
  rw [handle_combo_of_mem _ "SKU" "COMBO_" h1]
  show Except.ok (⟨addCol (addCol (addCol df.cols "MSKU") "SKU") "MSKU",
      ((df.rows.map (resolvePass m)).map comboPass).map (resolvePass m)⟩ : Frame) = _
  rw [addCol_of_mem (addCol df.cols "MSKU") "SKU" h1]
  rw [addCol_of_mem (addCol df.cols "MSKU") "MSKU" (mem_addCol_self df.cols "MSKU")]
  rw [List.map_map, List.map_map]
  rfl

/-- Claim C5 (amended): running the Row Transformer a second time on an
already-transformed table IS idempotent, also for combo rows: whenever a first
run succeeds with output `out`, a second run on `out` succeeds and returns
`out` itself unchanged.  The claimed non-idempotent combo behavior does not
exist: `_process_combo` is idempotent and MSKU is recomputed from SKU alone. -/
theorem c5_transform_idempotent (m : List (String × String)) (df out : Frame)
    (h : process_sales_data m df "SKU" "MSKU" = Except.ok out) :
    process_sales_data m out "SKU" "MSKU" = Except.ok out := by
  by_cases hm : m = []
  · unfold process_sales_data at h
    rw [if_pos hm] at h
    exact Except.noConfusion h
  · by_cases hS : "SKU" ∈ df.cols
    · rw [process_sales_data_ok m df hm hS] at h
      have hout : out = ⟨addCol df.cols "MSKU", df.rows.map (transformRow m)⟩ :=
        (Except.ok.inj h).symm
      subst hout
      rw [process_sales_data_ok m _ hm (mem_addCol_of_mem df.cols "SKU" "MSKU" hS)]
      have hcomp : (transformRow m ∘ transformRow m) = transformRow m :=
        funext fun r => transformRow_idem m r
      show Except.ok (⟨addCol (addCol df.cols "MSKU") "MSKU",
          (df.rows.map (transformRow m)).map (transformRow m)⟩ : Frame) = _
      rw [addCol_of_mem (addCol df.cols "MSKU") "MSKU" (mem_addCol_self df.cols "MSKU")]
      rw [List.map_map, hcomp]
    · unfold process_sales_data at h
      rw [if_neg hm, if_neg hS] at h
      exact Except.noConfusion h

theorem getD_map_rows (l : List Row) (f : Row → Row) (i : ℕ) (hi : i < l.length) :
    (l.map f).getD i [] = f (l.getD i []) := by
  induction l generalizing i with
  | nil => simp at hi
  | cons hd tl ih =>
    cases i with
    | zero => rfl
    | succ n => exact ih n (Nat.lt_of_succ_lt_succ hi)

/-! ### Claim theorems -/

/-- Claim C1, counterexample: with the mapping `{"COMBO_MSKU": "SURPRISE"}`
(nonempty, so the transform runs) and original SKU `"combo_special"` (combo
prefix), the transformed row has `MSKU = "SURPRISE"`, not the placeholder:
pass 3 finds the synthetic SKU text as a mapping key, so the claim as stated
(placeholder in both fields for every combo row) is false. -/
theorem c1_counterexample :
    process_sales_data comboTrapMap scenarioC "SKU" "MSKU" =
      Except.ok ⟨["SKU", "MSKU"],
        [[("SKU", some "COMBO_MSKU"), ("MSKU", some "SURPRISE")]]⟩ ∧
    (some "SURPRISE" : Option String) ≠ some "COMBO_MSKU" :=
  ⟨rfl, by decide⟩

/-- Claim C1 (amended): provided the mapping has no key `"COMBO_MSKU"`, every
row whose original SKU normalizes to the reserved prefix ends the transform
with both its SKU and its MSKU cell equal to the placeholder `"COMBO_MSKU"`
(the original SKU value is gone from those fields); the transform performs
resolve, then combo classification in place on SKU, then resolve again, which
is the `transformRow` composite shown equal to the code in
`process_sales_data_ok`. -/
theorem c1_combo_placeholder (m : List (String × String)) (df out : Frame)
    (i : ℕ) (s : String)
    (hm : ¬ m = []) (hS : "SKU" ∈ df.cols)
    (hmiss : lookupKey m "COMBO_MSKU" = none)
    (hi : i < df.rows.length)
    (hsku : getCell (df.rows.getD i []) "SKU" = some s)
    (hc : pyStartsWith (cleanSKU s) "COMBO_" = true)
    (hout : process_sales_data m df "SKU" "MSKU" = Except.ok out) :
    getCell (out.rows.getD i []) "SKU" = some "COMBO_MSKU" ∧
    getCell (out.rows.getD i []) "MSKU" = some "COMBO_MSKU" := by
  rw [process_sales_data_ok m df hm hS] at hout
  have hout' : out = ⟨addCol df.cols "MSKU", df.rows.map (transformRow m)⟩ :=
    (Except.ok.inj hout).symm
  subst hout'
  have happ : ("COMBO_" ++ "MSKU" : String) = "COMBO_MSKU" := rfl
  have hcl : cleanSKU "COMBO_MSKU" = "COMBO_MSKU" := by decide
  constructor
  · show getCell ((df.rows.map (transformRow m)).getD i []) "SKU" = some "COMBO_MSKU"
    rw [getD_map_rows df.rows (transformRow m) i hi]
    unfold transformRow
    rw [getCell_SKU_resolvePass, getCell_SKU_comboPass, getCell_SKU_resolvePass, hsku]
    simp only [_process_combo, if_pos hc]
    rw [happ]
  · show getCell ((df.rows.map (transformRow m)).getD i []) "MSKU" = some "COMBO_MSKU"
    rw [getD_map_rows df.rows (transformRow m) i hi]
    unfold transformRow
    rw [getCell_MSKU_resolvePass, getCell_SKU_comboPass, getCell_SKU_resolvePass, hsku]
    simp only [_process_combo, if_pos hc]
    rw [happ]
    simp [identify_and_map_sku, hcl, hmiss]

/-- Witness for C1: the amended theorem applied to Scenario C under the
Scenario A mapping. -/
theorem c1_witness :
    getCell (scenarioC_out.rows.getD 0 []) "SKU" = some "COMBO_MSKU" ∧
    getCell (scenarioC_out.rows.getD 0 []) "MSKU" = some "COMBO_MSKU" :=
  c1_combo_placeholder demoMap scenarioC scenarioC_out 0 "combo_special"
    (by decide) (by decide) (by decide) (by decide) (by decide) (by decide) rfl

/-- Claim C2: a non-null raw SKU whose strip-and-uppercase normalization is a
key of the mapping resolves to exactly the MSKU stored under that key. -/
theorem c2_resolve_mapped_hit (m : List (String × String)) (s v : String)
    (h : lookupKey m (cleanSKU s) = some v) :
    identify_and_map_sku m (some s) = some v := by
  simp [identify_and_map_sku, h]

/-- Witness for C2: spec Scenario A, input `" abc123 "` resolves to `"M-1"`. -/
theorem c2_witness : identify_and_map_sku demoMap (some " abc123 ") = some "M-1" :=
  c2_resolve_mapped_hit demoMap " abc123 " "M-1" (by decide)

/-- Claim C3: a non-null raw SKU whose normalization is not a mapping key
resolves to the original, unnormalized value itself, and such a miss never
aborts the transformation: under the transformer's own preconditions the run
still returns a table. -/
theorem c3_resolve_miss_fallback (m : List (String × String)) (s : String) (df : Frame)
    (h : lookupKey m (cleanSKU s) = none) :
    identify_and_map_sku m (some s) = some s ∧
      (¬ m = [] → "SKU" ∈ df.cols →
        process_sales_data m df "SKU" "MSKU" =
          Except.ok ⟨addCol df.cols "MSKU", df.rows.map (transformRow m)⟩) := by
  constructor
  · simp [identify_and_map_sku, h]
  · intro hm hS
    exact process_sales_data_ok m df hm hS

/-- Witness for C3: spec Scenario B, input `"UNKNOWN1"` falls back to itself. -/
theorem c3_witness : identify_and_map_sku demoMap (some "UNKNOWN1") = some "UNKNOWN1" :=
  (c3_resolve_miss_fallback demoMap "UNKNOWN1" scenarioC (by decide)).1

/-- Claim C4, code bug: the code comment on line 48 says "Return None for NaN
or empty SKUs", and the claim says an empty raw SKU resolves to absent/null;
but `pd.isna("")` is false, so the empty string takes the normal path and the
miss-fallback returns `""` itself — a non-null value — while the NaN path does
return null as documented. -/
theorem c4_empty_sku_not_null :
    identify_and_map_sku demoMap (some "") = some "" ∧
    identify_and_map_sku demoMap (some "") ≠ none ∧
    identify_and_map_sku demoMap none = none := by
  decide

/-- Claim C5, counterexample to the claimed non-idempotence: at the spec's own
combo scenario (Scenario C under the Scenario A mapping) the second run of the
transformer returns exactly the first run's output, unchanged. -/
theorem c5_counterexample :
    process_sales_data demoMap scenarioC "SKU" "MSKU" = Except.ok scenarioC_out ∧
    process_sales_data demoMap scenarioC_out "SKU" "MSKU" = Except.ok scenarioC_out :=
  ⟨rfl, rfl⟩

/-- Witness for C5: the idempotence theorem applied to Scenario C. -/
theorem c5_witness :
    process_sales_data demoMap scenarioC_out "SKU" "MSKU" = Except.ok scenarioC_out :=
  c5_transform_idempotent demoMap scenarioC scenarioC_out rfl

/-- Claim C6: a lookup hit at the normalized query returns a `(key, value)`
pair present verbatim among the source table's rows — the dict keys are the
raw source SKU texts, with no strip/uppercase applied at load time — so the
resolver succeeds only when the normalized query text exactly equals some
stored raw key. -/
theorem c6_load_keys_verbatim (pairs : List (String × String)) (s v : String)
    (h : lookupKey (load_mapping pairs) (cleanSKU s) = some v) :
    identify_and_map_sku (load_mapping pairs) (some s) = some v ∧
    (cleanSKU s, v) ∈ pairs ∧
    cleanSKU s ∈ keysOf (load_mapping pairs) := by
  have hmem : (cleanSKU s, v) ∈ pairs := lookupKey_load_mapping_mem pairs _ v h
  exact ⟨by simp [identify_and_map_sku, h], hmem,
    mem_keysOf_load_mapping pairs _ v hmem⟩

/-- Witness for C6: loading the Scenario A table and resolving `" abc123 "`. -/
theorem c6_witness :
    identify_and_map_sku (load_mapping demoMap) (some " abc123 ") = some "M-1" ∧
    (cleanSKU " abc123 ", "M-1") ∈ demoMap ∧
    cleanSKU " abc123 " ∈ keysOf (load_mapping demoMap) :=
  c6_load_keys_verbatim demoMap " abc123 " "M-1" (by decide)

/-- Claim C7: after any mapping load the dict's keys are unique, and a lookup
returns exactly the MSKU of the last source row carrying that SKU key
(`lastRowValue`, the spec's duplicate rule). -/
theorem c7_keys_unique_last_wins (pairs : List (String × String)) (k : String) :
    (keysOf (load_mapping pairs)).Nodup ∧
    lookupKey (load_mapping pairs) k = lastRowValue pairs k :=
  ⟨nodup_keysOf_load_mapping pairs, lookupKey_load_mapping pairs k⟩

/-- Claim C8: with an empty/unloaded mapping, or a sales table without the SKU
column, the transformer raises (returns an error) and yields no output table;
in the code both checks precede the first column write, so the table is left
unchanged. -/
theorem c8_schema_error (m : List (String × String)) (df : Frame) (sc mc : String)
    (h : m = [] ∨ ¬ sc ∈ df.cols) :
    isError (process_sales_data m df sc mc) = true := by
  unfold process_sales_data
  rcases h with h | h
  · rw [if_pos h]
    rfl
  · by_cases hm : m = []
    · rw [if_pos hm]
      rfl
    · rw [if_neg hm, if_neg h]
      rfl

/-- Witness for C8: an empty mapping together with a SKU-less sales table. -/
theorem c8_witness :
    isError (process_sales_data ([] : List (String × String))
      ⟨["QTY"], [[("QTY", some "1")]]⟩ "SKU" "MSKU") = true :=
  c8_schema_error [] ⟨["QTY"], [[("QTY", some "1")]]⟩ "SKU" "MSKU" (Or.inl rfl)

/-- Claim C9: a successful transform keeps the row count, keeps row order
(the output row at every index is computed from the input row at that same
index), and leaves every cell of every column other than SKU and MSKU
untouched. -/
theorem c9_frame_preserved (m : List (String × String)) (df out : Frame)
    (h : process_sales_data m df "SKU" "MSKU" = Except.ok out) :
    out.rows.length = df.rows.length ∧
    ∀ i : ℕ, i < df.rows.length → ∀ c : String, ¬ c = "SKU" → ¬ c = "MSKU" →
      getCell (out.rows.getD i []) c = getCell (df.rows.getD i []) c := by
  by_cases hm : m = []
  · unfold process_sales_data at h
    rw [if_pos hm] at h
    exact Except.noConfusion h
  · by_cases hS : "SKU" ∈ df.cols
    · rw [process_sales_data_ok m df hm hS] at h
      have hout : out = ⟨addCol df.cols "MSKU", df.rows.map (transformRow m)⟩ :=
        (Except.ok.inj h).symm
      subst hout
      constructor
      · show (df.rows.map (transformRow m)).length = df.rows.length
        simp
      · intro i hi c hcS hcM
        show getCell ((df.rows.map (transformRow m)).getD i []) c =
          getCell (df.rows.getD i []) c
        rw [getD_map_rows df.rows (transformRow m) i hi]
        unfold transformRow resolvePass comboPass
        rw [getCell_setCell_ne _ _ _ _ hcM, getCell_setCell_ne _ _ _ _ hcS,
          getCell_setCell_ne _ _ _ _ hcM]
    · unfold process_sales_data at h
      rw [if_neg hm, if_neg hS] at h
      exact Except.noConfusion h

/-- Witness for C9: the frame theorem at a table with an extra `QTY` column. -/
theorem c9_witness :
    getCell (scenario9_out.rows.getD 0 []) "QTY" =
      getCell (scenario9.rows.getD 0 []) "QTY" ∧
    scenario9_out.rows.length = scenario9.rows.length :=
  ⟨(c9_frame_preserved demoMap scenario9 scenario9_out rfl).2 0 (by decide) "QTY"
      (by decide) (by decide),
    (c9_frame_preserved demoMap scenario9 scenario9_out rfl).1⟩

/-- Claim C10 (implicit): `handle_combo_products` on a table without the SKU
column raises no error and returns the table completely unchanged (the code
only logs a warning), unlike the schema-error policy of the transformer. -/
theorem c10_missing_sku_noop (df : Frame) (sc p : String) (h : ¬ sc ∈ df.cols) :
    handle_combo_products df sc p = df := by
  unfold handle_combo_products
  rw [if_neg h]

/-- Witness for C10: a SKU-less table passes through untouched. -/
theorem c10_witness :
    handle_combo_products ⟨["QTY"], [[("QTY", some "1")]]⟩ "SKU" "COMBO_" =
      ⟨["QTY"], [[("QTY", some "1")]]⟩ :=
  c10_missing_sku_noop ⟨["QTY"], [[("QTY", some "1")]]⟩ "SKU" "COMBO_" (by decide)

end WMS
